import Mathlib

/-!
# Verification of `whitelint.py`

A shallow embedding of the whitespace-lint checker `whitelint.py`.
Byte strings are modelled as `List Nat` (each element a byte value).
Python operations used by the script (`bytes.replace`, `bytes.find`,
`bytes.rfind`, `bytes.split`, `bytes.strip`, and the regular expressions
`^\s*`, `\s*$`, `[^\t\r\n\x20-\x7E]+`) are embedded as executable Lean
functions.  Points where the Python code can raise an exception
(the `assert` in the CRLF branch, and the reference to the unbound
variable `d` in the CR-only branch) are modelled by returning `none`.
-/

namespace Whitelint

/-- Python byte-regex whitespace class `\s` = `[ \t\n\r\f\v]`. -/
def isPySpace (b : Nat) : Bool :=
  b == 32 || b == 9 || b == 10 || b == 13 || b == 12 || b == 11

/-- Python `bytes.replace` for a two-byte pattern `[a, b]` replaced by the single
byte `c`, scanning left to right, non-overlapping (used for
`data.replace(b"\r\n", b"\f")`). -/
def replacePair (a b c : Nat) : List Nat → List Nat
  | x :: y :: rest =>
      if x = a ∧ y = b then c :: replacePair a b c rest
      else x :: replacePair a b c (y :: rest)
  | l => l

/-- Python `bytes.replace` for a one-byte pattern `a` replaced by the byte string
`rep` (used for `replace(b"\f", b"\n")`, `replace(b"\r", b"\n")` and
`replace(b"\t", b"    ")`). -/
def replaceByte (a : Nat) (rep : List Nat) : List Nat → List Nat
  | [] => []
  | x :: rest => (if x = a then rep else [x]) ++ replaceByte a rep rest

/-- Python `bytes.split(b"\n")`: split on the byte 10, keeping empty pieces. -/
def splitLines : List Nat → List (List Nat)
  | [] => [[]]
  | b :: rest =>
      if b = 10 then [] :: splitLines rest
      else
        match splitLines rest with
        | [] => [[b]]
        | l :: ls => (b :: l) :: ls

/-- Python `bytes.find` for the two-byte pattern `[a, b]`, returning the suffix
that follows the first occurrence (i.e. everything after the matched
pair), or `none` when the pattern does not occur. -/
def findPair (a b : Nat) : List Nat → Option (List Nat)
  | x :: y :: rest =>
      if x = a ∧ y = b then some rest
      else findPair a b (y :: rest)
  | _ => none

/-- Whether the two-byte pattern `[a, b]` occurs in the list. -/
def containsPair (a b : Nat) (l : List Nat) : Bool :=
  (findPair a b l).isSome

/-- The `while` loop of `multilineCommentIsOpenAtEol`, with explicit fuel.
Starting outside a comment it searches for `/*` (bytes 47, 42); starting
inside it searches for `*/` (bytes 42, 47); each hit toggles the state and
the scan resumes just past the matched pair.  Fuel `l.length` always
suffices since each round consumes at least two bytes. -/
def commentGo : Nat → Bool → List Nat → Bool
  | 0, isOpen, _ => isOpen
  | fuel + 1, isOpen, l =>
      match findPair (if isOpen then 42 else 47) (if isOpen then 47 else 42) l with
      | none => isOpen
      | some rest => commentGo fuel (!isOpen) rest

/-- The function `multilineCommentIsOpenAtEol(lineText, wasOpenAtStartOfLine)`. -/
def multilineCommentIsOpenAtEol (lineText : List Nat) (wasOpenAtStartOfLine : Bool) : Bool :=
  commentGo lineText.length wasOpenAtStartOfLine lineText

/-- Python `bytes.strip(b" ")`: remove leading and trailing spaces (byte 32). -/
def stripSpaces (l : List Nat) : List Nat :=
  ((l.dropWhile (· == 32)).reverse.dropWhile (· == 32)).reverse

/-- Helper for `bytes.rfind` of a two-byte pattern: walks the list keeping
the index `i` of the current head and the latest occurrence seen in `acc`. -/
def rfindPairAux (a b : Nat) : List Nat → Nat → Option Nat → Option Nat
  | x :: y :: rest, i, acc =>
      rfindPairAux a b (y :: rest) (i + 1) (if x = a ∧ y = b then some i else acc)
  | _, _, acc => acc

/-- Python `s.rfind(pat)` for the two-byte pattern `[a, b]`: index of the last
occurrence, or `-1` when absent (Python convention, hence `Int`). -/
def pyRfind2 (a b : Nat) (s : List Nat) : Int :=
  match rfindPairAux a b s 0 none with
  | some i => (i : Int)
  | none => -1

-- `b'(,\+-/*=&|?:"'`
def okCharsFollowing : List Nat := [40, 44, 92, 43, 45, 47, 42, 61, 38, 124, 63, 58, 34]

-- `b'+-/*=&|?:)"'`
def okCharsOfLine : List Nat := [43, 45, 47, 42, 61, 38, 124, 63, 58, 41, 34]

/-- The function `allowStrangeIndentOnFollowingLine(lineText)`. -/
def allowStrangeIndentOnFollowingLine (lineText : List Nat) : Bool :=
  let s0 := stripSpaces lineText
  if s0.length = 0 then false
  else
    let s1 :=
      if pyRfind2 42 47 s0 = (s0.length : Int) - 2 then
        -- line has a trailing comment, strip it
        let commentStart := pyRfind2 47 42 s0
        if commentStart ≠ -1 then stripSpaces (s0.take commentStart.toNat) else s0
      else s0
    if s1.length = 0 then false
    else
      match s1.getLast? with
      | some c => okCharsFollowing.contains c
      | none => false

/-- The function `allowStrangeIndentOfLine(lineText)`. -/
def allowStrangeIndentOfLine (lineText : List Nat) : Bool :=
  match stripSpaces lineText with
  | [] => false
  | c :: _ => okCharsOfLine.contains c

/-- Leading-whitespace width of a line: the length of the match of the
regular expression `^\s*` (`leadingWhitespaceRe`). -/
def lineIndent (line : List Nat) : Nat :=
  (line.takeWhile isPySpace).length

/-- Length of the match found by `re.search(b"\s*$", line)`: the maximal
run of trailing whitespace (the whole line when it is all whitespace). -/
def trailingRun (line : List Nat) : Nat :=
  (line.reverse.takeWhile isPySpace).length

/-- Contribution of one line to `has-trailing-whitespace`: the count is
incremented once when `trailing > 0`. -/
def trailingCountLine (line : List Nat) : Nat :=
  if 0 < trailingRun line then 1 else 0

/-- A byte matched by `badCharactersRe = [^\t\r\n\x20-\x7E]`. -/
def isBadChar (b : Nat) : Bool :=
  !(b == 9 || b == 13 || b == 10 || (32 ≤ b && b ≤ 126))

/-- Contribution of one line to `has-bad-character`: `re.search` of
`[^\t\r\n\x20-\x7E]+` succeeds exactly when the line holds at least one
such byte, and any match of the `+` pattern is non-empty, so the count is
incremented once per offending line however many bad bytes it has. -/
def badCharCountLine (line : List Nat) : Nat :=
  if line.any isBadChar then 1 else 0

/-- Contribution of one line to `has-tabs`. -/
def tabCountLine (line : List Nat) : Nat :=
  if line.contains 9 then 1 else 0

/-- One iteration of the bad-indenting loop.  The state is
`(commentIsOpen, previousLine, previousIndent)`; the result pairs the new
state with this line's contribution to `has-bad-indenting`. -/
def indentStep : Bool × List Nat × Nat → List Nat → (Bool × List Nat × Nat) × Nat
  | (commentIsOpen, previousLine, previousIndent), line =>
    if commentIsOpen then
      -- don't check leading whitespace inside comments
      ((multilineCommentIsOpenAtEol line commentIsOpen, line, 0), 0)
    else
      let indent := lineIndent line
      let bad : Nat :=
        if indent ≠ line.length ∧ indent % 4 ≠ 0 ∧ indent ≠ previousIndent ∧
            allowStrangeIndentOnFollowingLine previousLine = false ∧
            allowStrangeIndentOfLine line = false
        then 1 else 0
      ((multilineCommentIsOpenAtEol line commentIsOpen, line, indent), bad)

/-- The bad-indenting loop over the lines, accumulating the count. -/
def badIndentLoop : Bool × List Nat × Nat → List (List Nat) → Nat
  | _, [] => 0
  | st, line :: rest =>
      let r := indentStep st line
      r.2 + badIndentLoop r.1 rest

/-- The `has-bad-indenting` count for a whole file: initial state is
`commentIsOpen = False`, `previousLine = b""`, `previousIndent = 0`. -/
def badIndentCount (lines : List (List Nat)) : Nat :=
  badIndentLoop (false, [], 0) lines

/-- The `has-no-eol-at-eof` count: one when the buffer is non-empty and its
final byte is not a line feed. -/
def noEolAtEofCount (data : List Nat) : Nat :=
  if 0 < data.length then (if data.getLastD 0 ≠ 10 then 1 else 0) else 0

/-- Step 1 of the script: check line-ending consistency and normalize the
buffer to `\n` endings.  Returns the normalized data together with the
number of `has-inconsistent-line-endings` increments, or `none` when the
Python code raises:
* in the CRLF branch, `assert not b"\f" in data` fails when the buffer
  holds a form-feed byte;
* in the CR-only branch, the code evaluates `d.replace(b"\r", b"\n")`
  but `d` is only ever assigned inside the CRLF branch, so on a fresh run
  the name `d` is unbound and a `NameError` is raised. -/
def normalizeLineEndings (data : List Nat) : Option (List Nat × Nat) :=
  if data.contains 13 && data.contains 10 then
    -- CRLF (Windows) case: check for stray CR or LF, then convert CRLF to LF
    if data.contains 12 then none  -- AssertionError: \f is used as a sentinel
    else
      let d := replacePair 13 10 12 data
      let strayCr : Nat := if d.contains 13 then 1 else 0
      let strayLf : Nat := if d.contains 10 then 1 else 0
      some (replaceByte 12 [10] d, strayCr + strayLf)
  else if data.contains 13 then
    -- CR (Classic Mac) case: `data = d.replace(b"\r", b"\n")` — NameError,
    -- `d` is not bound in this branch
    none
  else
    -- LF (Unix) case: no change
    some (data, 0)

/-- The issue counters of `FileStatus.issueCounts`. -/
structure IssueRecord where
  inconsistentLineEndings : Nat
  tabs : Nat
  badIndenting : Nat
  trailingWhitespace : Nat
  badCharacter : Nat
  noEolAtEof : Nat
  deriving Repr, DecidableEq

/-- Analysis of one file: the per-file body of the main loop of
`whitelint.py`, from `data = path.read_bytes()` to the final EOL-at-EOF
check.  `none` models an uncaught exception (see
`normalizeLineEndings`). -/
def analyzeFile (data0 : List Nat) : Option IssueRecord :=
  match normalizeLineEndings data0 with
  | none => none
  | some (data1, nInconsistent) =>
    let lines1 := splitLines data1
    let nTabs := (lines1.map tabCountLine).sum
    -- normalize tabs to 4 spaces for the indent algorithm below
    let data2 := replaceByte 9 [32, 32, 32, 32] data1
    let lines2 := splitLines data2
    let nBadIndent := badIndentCount lines2
    let nTrailing := (lines2.map trailingCountLine).sum
    let nBadChar := (lines2.map badCharCountLine).sum
    let nNoEol := noEolAtEofCount data2
    some ⟨nInconsistent, nTabs, nBadIndent, nTrailing, nBadChar, nNoEol⟩

example : replacePair 13 10 12 [13, 13, 10, 97] = [13, 12, 97] := by decide
-- C1 scratch: form feed with CRLF trips the assert; CR-only trips the NameError
example : analyzeFile [12, 13, 10] = none := by decide
example : analyzeFile [97, 13] = none := by decide
example : analyzeFile [97, 10] = some ⟨0, 0, 0, 0, 0, 0⟩ := by decide
-- C8 scratch: byte 0x01 alone
example : analyzeFile [1] = some ⟨0, 0, 0, 0, 1, 1⟩ := by decide
example : analyzeFile [1, 2, 3] = some ⟨0, 0, 0, 0, 1, 1⟩ := by decide

-- C5 scratch: b"int main() {\r\n    return 0;\r\n}\n"
example :
    normalizeLineEndings
      [105, 110, 116, 32, 109, 97, 105, 110, 40, 41, 32, 123, 13, 10,
       32, 32, 32, 32, 114, 101, 116, 117, 114, 110, 32, 48, 59, 13, 10, 125, 10] =
    some ([105, 110, 116, 32, 109, 97, 105, 110, 40, 41, 32, 123, 10,
           32, 32, 32, 32, 114, 101, 116, 117, 114, 110, 32, 48, 59, 10, 125, 10], 1) := by
  decide

example :
    splitLines
      [105, 110, 116, 32, 109, 97, 105, 110, 40, 41, 32, 123, 10,
       32, 32, 32, 32, 114, 101, 116, 117, 114, 110, 32, 48, 59, 10, 125, 10] =
    [[105, 110, 116, 32, 109, 97, 105, 110, 40, 41, 32, 123],
     [32, 32, 32, 32, 114, 101, 116, 117, 114, 110, 32, 48, 59], [125], []] := by
  decide

-- C3 scratch: "/* c" / "  x */ y" / "  int x;" — line 3 has the same leading
-- width as line 2 yet raises bad-indenting, because the comment interior
-- reset previousIndent to 0
example :
    badIndentCount
      [[47, 42, 32, 99], [32, 32, 120, 32, 42, 47, 32, 121],
       [32, 32, 105, 110, 116, 32, 120, 59]] = 1 := by decide
example :
    badIndentCount [[47, 42, 32, 99], [32, 32, 120, 32, 42, 47, 32, 121]] = 0 := by decide
example : lineIndent [32, 32, 120, 32, 42, 47, 32, 121] = 2 := by decide
example : lineIndent [32, 32, 105, 110, 116, 32, 120, 59] = 2 := by decide

/-! ## Helper lemmas -/

/-- When the scanned prefix `x` is free of the pattern, `findPair` locates
the explicitly appended pair and returns the suffix that follows it.
The hypothesis `a ≠ b` rules out a match straddling the boundary. -/
theorem findPair_append (a b : Nat) (hab : a ≠ b) :
    ∀ (x y : List Nat), findPair a b x = none →
      findPair a b (x ++ a :: b :: y) = some y := by
  intro x
  induction x with
  | nil => intro y _; simp [findPair]
  | cons c xs ih =>
    intro y hx
    cases xs with
    | nil =>
      have hc : ¬(c = a ∧ a = b) := fun h => hab h.2
      simp [findPair, hc]
    | cons d xs' =>
      have h1 : ¬(c = a ∧ d = b) := by
        intro hcd
        simp [findPair, hcd] at hx
      have h2 : findPair a b (d :: xs') = none := by
        simpa [findPair, h1] using hx
      simpa [List.cons_append, findPair, h1] using ih y h2

/-- Lines whose block-comment delimiters are balanced: a concatenation of
segments `a₀ /* b₀ */ a₁ /* b₁ */ … aₙ` in which no `aᵢ` holds an open
delimiter `/*` and no `bᵢ` holds a close delimiter `*/`. -/
inductive BalancedComments : List Nat → Prop
  | flat (a : List Nat) (ha : findPair 47 42 a = none) : BalancedComments a
  | seg (a b rest : List Nat) (ha : findPair 47 42 a = none)
      (hb : findPair 42 47 b = none) (hrest : BalancedComments rest) :
      BalancedComments (a ++ 47 :: 42 :: (b ++ 42 :: 47 :: rest))

/-- Scanning a balanced line from the closed state, with enough fuel,
lands back in the closed state. -/
theorem commentGo_balanced (l : List Nat) (hl : BalancedComments l) :
    ∀ fuel, l.length ≤ fuel → commentGo fuel false l = false := by
  induction hl with
  | flat a ha =>
    intro fuel _
    cases fuel with
    | zero => rfl
    | succ f => simp [commentGo, ha]
  | seg a b rest ha hb hrest ih =>
    intro fuel hfuel
    have hlen : (a ++ 47 :: 42 :: (b ++ 42 :: 47 :: rest)).length
        = a.length + b.length + rest.length + 4 := by
      simp; omega
    obtain ⟨f2, rfl⟩ : ∃ f2, fuel = f2 + 2 := ⟨fuel - 2, by omega⟩
    have step1 : commentGo (f2 + 2) false (a ++ 47 :: 42 :: (b ++ 42 :: 47 :: rest))
        = commentGo (f2 + 1) true (b ++ 42 :: 47 :: rest) := by
      have hfind := findPair_append 47 42 (by decide) a (b ++ 42 :: 47 :: rest) ha
      simp [commentGo, hfind]
    have step2 : commentGo (f2 + 1) true (b ++ 42 :: 47 :: rest)
        = commentGo f2 false rest := by
      have hfind := findPair_append 42 47 (by decide) b rest hb
      simp [commentGo, hfind]
    rw [step1, step2]
    exact ih f2 (by omega)

/-- Any index produced by `rfindPairAux` (beyond the accumulator) points at
an actual occurrence of the pair inside the list. -/
theorem rfindPairAux_spec (a b : Nat) :
    ∀ (l : List Nat) (i : Nat) (acc : Option Nat) (j : Nat),
      rfindPairAux a b l i acc = some j →
      acc = some j ∨
        ∃ k, l.get? k = some a ∧ l.get? (k + 1) = some b ∧ j = i + k := by
  intro l
  induction l with
  | nil => intro i acc j h; exact Or.inl h
  | cons x l ih =>
    intro i acc j h
    cases l with
    | nil => exact Or.inl h
    | cons y rest =>
      rw [rfindPairAux] at h
      rcases ih (i + 1) _ j h with hacc | ⟨k, hk1, hk2, hk3⟩
      · by_cases hxy : x = a ∧ y = b
        · rw [if_pos hxy] at hacc
          obtain rfl : i = j := by simpa using hacc
          refine Or.inr ⟨0, ?_, ?_, ?_⟩
          · simp [hxy.1]
          · simp [hxy.2]
          · omega
        · rw [if_neg hxy] at hacc
          exact Or.inl hacc
      · exact Or.inr ⟨k + 1, by simpa using hk1, by simpa using hk2, by omega⟩

/-- On a list explicitly ending with the pair `[a, b]`, `rfindPairAux`
reports that final occurrence (any earlier accumulator is overwritten). -/
theorem rfindPairAux_concat_pair (a b : Nat) :
    ∀ (t : List Nat) (i : Nat) (acc : Option Nat),
      rfindPairAux a b (t ++ [a, b]) i acc = some (i + t.length) := by
  intro t
  induction t with
  | nil =>
    intro i acc
    simp [rfindPairAux]
  | cons c t' ih =>
    intro i acc
    cases t' with
    | nil =>
      simp only [List.cons_append, List.nil_append, rfindPairAux]
      simp [rfindPairAux]
    | cons d t'' =>
      have h2 := ih (i + 1) (if c = a ∧ d = b then some i else acc)
      simp only [List.cons_append] at h2 ⊢
      rw [rfindPairAux, h2]
      simp only [List.length_cons, Option.some.injEq]
      omega

/-- When the pattern does not occur at all, `rfindPairAux` just returns the
accumulator. -/
theorem rfindPairAux_of_none (a b : Nat) :
    ∀ (l : List Nat) (i : Nat) (acc : Option Nat),
      findPair a b l = none → rfindPairAux a b l i acc = acc := by
  intro l
  induction l with
  | nil => intro i acc _; rfl
  | cons x l ih =>
    intro i acc h
    cases l with
    | nil => rfl
    | cons y rest =>
      have hxy : ¬(x = a ∧ y = b) := by
        intro hxy
        simp [findPair, hxy] at h
      have htail : findPair a b (y :: rest) = none := by
        simpa [findPair, hxy] using h
      rw [rfindPairAux, if_neg hxy]
      exact ih (i + 1) acc htail

/-- A line whose stripped text ends in the close delimiter `*/` and holds
no open delimiter `/*` allows a strange indent on the following line: the
trailing-comment strip finds no `/*`, leaves the text unchanged, and the
final byte `/` is in the continuation-character set. -/
theorem allowStrange_of_close_comment_tail (line t : List Nat)
    (hs : stripSpaces line = t ++ [42, 47])
    (hno : findPair 47 42 (stripSpaces line) = none) :
    allowStrangeIndentOnFollowingLine line = true := by
  rw [hs] at hno
  have hrf : pyRfind2 42 47 (t ++ [42, 47]) = (t.length : Int) := by
    unfold pyRfind2
    rw [rfindPairAux_concat_pair 42 47 t 0 none]
    simp
  have hrf2 : pyRfind2 47 42 (t ++ [42, 47]) = -1 := by
    unfold pyRfind2
    rw [rfindPairAux_of_none 47 42 _ 0 none hno]
  have hlast : (t ++ [42, 47]).getLast? = some 47 := by
    have : t ++ [42, 47] = (t ++ [42]) ++ [47] := by simp
    rw [this, List.getLast?_concat]
  have hlen : (t ++ [42, 47]).length = t.length + 2 := by simp
  simp only [allowStrangeIndentOnFollowingLine, hs, hrf, hrf2, hlast, hlen]
  norm_num
  decide

/-- A line whose stripped text ends in a comma allows a strange indent on
the following line: the trailing-comment test cannot fire on a text whose
last byte is `,` (except vacuously when the text is the single byte `,`,
where nothing is stripped), and `,` is in the continuation-character set. -/
theorem allowStrange_of_last_comma (prev : List Nat)
    (h : (stripSpaces prev).getLast? = some 44) :
    allowStrangeIndentOnFollowingLine prev = true := by
  have hne : stripSpaces prev ≠ [] := by
    intro h0; rw [h0] at h; exact Option.noConfusion h
  rcases Nat.lt_or_ge 1 (stripSpaces prev).length with hlen | hlen
  · -- length ≥ 2: the rfind test cannot hold since the last byte is 44, not 47
    have hner : ¬(pyRfind2 42 47 (stripSpaces prev) = ((stripSpaces prev).length : Int) - 2) := by
      intro heq
      unfold pyRfind2 at heq
      cases hr : rfindPairAux 42 47 (stripSpaces prev) 0 none with
      | none => rw [hr] at heq; simp at heq; omega
      | some j =>
        rw [hr] at heq
        rcases rfindPairAux_spec 42 47 _ 0 none j hr with hacc | ⟨k, hk1, hk2, hk3⟩
        · exact Option.noConfusion hacc
        · have hj : (j : Int) = ((stripSpaces prev).length : Int) - 2 := by
            simpa using heq
          have hk : k + 1 = (stripSpaces prev).length - 1 := by omega
          have h47 : (stripSpaces prev).get? ((stripSpaces prev).length - 1) = some 47 := by
            rw [← hk]; exact hk2
          have hlast : (stripSpaces prev).getLast? = some 47 := by
            rw [List.getLast?_eq_getElem?, ← List.get?_eq_getElem?]
            exact h47
          rw [h] at hlast
          exact absurd (Option.some.inj hlast) (by omega)
    have hlen0 : ¬((stripSpaces prev).length = 0) := by
      intro h0; exact hne (List.length_eq_zero.mp h0)
    simp only [allowStrangeIndentOnFollowingLine, if_neg hlen0, if_neg hner, h]
    decide
  · -- length = 1: the stripped text is exactly [44]
    have h1 : (stripSpaces prev).length = 1 := by
      have := List.length_pos.mpr hne; omega
    obtain ⟨a, ha⟩ := List.length_eq_one.mp h1
    have ha44 : a = 44 := by
      rw [ha] at h; simpa using h
    subst ha44
    simp only [allowStrangeIndentOnFollowingLine, ha]
    decide

example : splitLines [97, 10, 98] = [[97], [98]] := by decide
example : splitLines [] = [[]] := by decide
example : splitLines [10] = [[], []] := by decide
-- "/* x */" closed stays closed; open becomes closed
example : multilineCommentIsOpenAtEol [47, 42, 32, 120, 32, 42, 47] false = false := by decide
example : multilineCommentIsOpenAtEol [47, 42, 32, 120, 32, 42, 47] true = false := by decide
example : multilineCommentIsOpenAtEol [47, 42, 32, 120] false = true := by decide
example : stripSpaces [32, 32, 97, 32] = [97] := by decide
example : pyRfind2 42 47 [120, 42, 47] = 1 := by decide
example : pyRfind2 42 47 [120] = -1 := by decide
-- "foo(a," allows a strange indent to follow; "x */ y" does not; " */" does
example : allowStrangeIndentOnFollowingLine [102, 111, 111, 40, 97, 44] = true := by decide
example : allowStrangeIndentOnFollowingLine [120, 32, 42, 47, 32, 121] = false := by decide
example : allowStrangeIndentOnFollowingLine [32, 42, 47] = true := by decide
-- "/* c */" strips to nothing
example : allowStrangeIndentOnFollowingLine [47, 42, 32, 99, 32, 42, 47] = false := by decide
example : allowStrangeIndentOfLine [32, 41, 59] = true := by decide
example : allowStrangeIndentOfLine [32, 120] = false := by decide

/-! ## Claims -/

/-- C1 counterexample: analysis does not complete on every input.  On the
bytes `b"\x0c\x0d\x0a"` — a form feed together with a CRLF pair — the
buffer holds both CR and LF, so the CRLF branch runs and its
`assert not b"\f" in data` fails, raising `AssertionError`. -/
theorem C1_counterexample : analyzeFile [12, 13, 10] = none := by decide

/-- C1 (amended): for every input that does not combine a form-feed byte
with both CR and LF (which trips the sentinel assert) and does not contain
CR without LF (which reads the unbound variable `d`), analysis runs to
completion and yields an `IssueRecord`. -/
theorem C1_analysis_total (data : List Nat)
    (h1 : ¬(data.contains 12 = true ∧ data.contains 13 = true ∧ data.contains 10 = true))
    (h2 : ¬(data.contains 13 = true ∧ data.contains 10 = false)) :
    ∃ r, analyzeFile data = some r := by
  have hnorm : ∃ p, normalizeLineEndings data = some p := by
    unfold normalizeLineEndings
    split
    · split
      · rename_i hcrlf h12
        exact absurd ⟨h12, (Bool.and_eq_true _ _).mp hcrlf⟩ h1
      · exact ⟨_, rfl⟩
    · split
      · rename_i hcrlf h13
        have h10 : data.contains 10 = false := by
          cases h10 : data.contains 10 with
          | false => rfl
          | true => exact absurd (by rw [h13, h10]; rfl) hcrlf
        exact absurd ⟨h13, h10⟩ h2
      · exact ⟨_, rfl⟩
  obtain ⟨⟨data1, n⟩, hp⟩ := hnorm
  have hs : (analyzeFile data).isSome = true := by
    unfold analyzeFile
    rw [hp]
    rfl
  exact Option.isSome_iff_exists.mp hs

theorem C1_witness : ∃ r, analyzeFile [97, 10] = some r :=
  C1_analysis_total [97, 10] (by decide) (by decide)

/-- C2: on a buffer that contains CR but no LF (here `b"a\r"`), the code
takes the CR-only branch and evaluates `d.replace(b"\r", b"\n")`, but `d`
is only assigned in the CRLF branch, so the analysis raises instead of
rewriting the carriage returns; no normalized record is produced. -/
theorem C2_cr_only_raises :
    normalizeLineEndings [97, 13] = none ∧ analyzeFile [97, 13] = none := by decide

/-- C3 counterexample: on the lines `"/* c"`, `"  x */ y"`, `"  int x;"`
the third line's leading width (2) equals the second line's leading width
(2), yet bad-indenting is raised for it — the second line is a comment
interior, so the validator reset `previousIndent` to 0. -/
theorem C3_counterexample :
    lineIndent [32, 32, 105, 110, 116, 32, 120, 59] =
      lineIndent [32, 32, 120, 32, 42, 47, 32, 121] ∧
    badIndentCount [[47, 42, 32, 99], [32, 32, 120, 32, 42, 47, 32, 121]] = 0 ∧
    badIndentCount [[47, 42, 32, 99], [32, 32, 120, 32, 42, 47, 32, 121],
      [32, 32, 105, 110, 116, 32, 120, 59]] = 1 := by decide

/-- C3 (amended): a line whose leading-whitespace width equals the
validator's tracked `previousIndent` never raises bad-indenting,
regardless of multiple-of-4 status; and `previousIndent` equals the
immediately preceding line's width exactly when that line was processed
outside a comment (comment interiors reset it to 0). -/
theorem C3_indent_tolerance (st : Bool × List Nat × Nat) (line : List Nat)
    (h : lineIndent line = st.2.2) :
    (indentStep st line).2 = 0 ∧
    (st.1 = false → ((indentStep st line).1).2.2 = lineIndent line) := by
  obtain ⟨c, prev, pIndent⟩ := st
  cases c with
  | true => exact ⟨rfl, fun hh => Bool.noConfusion hh⟩
  | false =>
    have hcond : ¬(lineIndent line ≠ line.length ∧ lineIndent line % 4 ≠ 0 ∧
        lineIndent line ≠ pIndent ∧ allowStrangeIndentOnFollowingLine prev = false ∧
        allowStrangeIndentOfLine line = false) := by
      rintro ⟨-, -, hne, -, -⟩
      exact hne h
    exact ⟨if_neg hcond, fun _ => rfl⟩

theorem C3_witness :
    (indentStep (false, [], 0) [120]).2 = 0 ∧
    (false = false → ((indentStep (false, [], 0) [120]).1).2.2 = lineIndent [120]) :=
  C3_indent_tolerance (false, [], 0) [120] (by decide)

/-- C4 counterexample: the line `"/* x */"` holds one balanced open/close
pair, yet entering it in the in-comment state exits in the not-in-comment
state — the `*/` closes the enclosing comment and the earlier `/*` is
never scanned — so the tracker does not return the state passed in for
every entry state. -/
theorem C4_counterexample :
    multilineCommentIsOpenAtEol [47, 42, 32, 120, 32, 42, 47] true = false := by decide

/-- C4 (amended): for the not-in-comment entry state, a line with balanced
open/close block-comment delimiters (segments free of stray delimiters,
each `/*` matched by a later `*/`) exits in the not-in-comment state; in
particular comments opened and closed within one line are all consumed. -/
theorem C4_balanced_pairing (l : List Nat) (h : BalancedComments l) :
    multilineCommentIsOpenAtEol l false = false :=
  commentGo_balanced l h l.length le_rfl

theorem C4_witness : multilineCommentIsOpenAtEol [47, 42, 32, 42, 47] false = false :=
  C4_balanced_pairing [47, 42, 32, 42, 47]
    (by
      have hb : BalancedComments ([] ++ 47 :: 42 :: ([32] ++ 42 :: 47 :: ([] : List Nat))) :=
        BalancedComments.seg [] [32] [] rfl rfl (BalancedComments.flat [] rfl)
      simpa using hb)

/-- C5: on the input bytes `b"int main() {\r\n    return 0;\r\n}\n"` the
normalizer increments inconsistent-line-endings exactly once (the stray
final line feed) and the normalized buffer splits into the four lines
`"int main() {"`, `"    return 0;"`, `"}"`, `""`. -/
theorem C5_mixed_crlf_scenario :
    normalizeLineEndings
      [105, 110, 116, 32, 109, 97, 105, 110, 40, 41, 32, 123, 13, 10,
       32, 32, 32, 32, 114, 101, 116, 117, 114, 110, 32, 48, 59, 13, 10, 125, 10] =
    some ([105, 110, 116, 32, 109, 97, 105, 110, 40, 41, 32, 123, 10,
           32, 32, 32, 32, 114, 101, 116, 117, 114, 110, 32, 48, 59, 10, 125, 10], 1) ∧
    splitLines
      [105, 110, 116, 32, 109, 97, 105, 110, 40, 41, 32, 123, 10,
       32, 32, 32, 32, 114, 101, 116, 117, 114, 110, 32, 48, 59, 10, 125, 10] =
    [[105, 110, 116, 32, 109, 97, 105, 110, 40, 41, 32, 123],
     [32, 32, 32, 32, 114, 101, 116, 117, 114, 110, 32, 48, 59], [125], []] := by
  decide

/-- C6: a line whose space-stripped text ends with a comma allows the
following line any indent: when the next line has indent 2 (not a multiple
of 4, possibly different from the previous indent), the indent validator
raises no bad-indenting, since the continuation heuristic accepts the
predecessor. -/
theorem C6_comma_suppresses_indent (prev line : List Nat) (prevIndent : Nat)
    (hcomma : (stripSpaces prev).getLast? = some 44)
    (_hindent : lineIndent line = 2) :
    (indentStep (false, prev, prevIndent) line).2 = 0 := by
  have hallow := allowStrange_of_last_comma prev hcomma
  have hcond : ¬(lineIndent line ≠ line.length ∧ lineIndent line % 4 ≠ 0 ∧
      lineIndent line ≠ prevIndent ∧ allowStrangeIndentOnFollowingLine prev = false ∧
      allowStrangeIndentOfLine line = false) := by
    rintro ⟨-, -, -, hf, -⟩
    rw [hallow] at hf
    exact Bool.noConfusion hf
  exact if_neg hcond

theorem C6_witness :
    (indentStep (false, [102, 111, 111, 40, 97, 44], 0) [32, 32, 120]).2 = 0 :=
  C6_comma_suppresses_indent [102, 111, 111, 40, 97, 44] [32, 32, 120] 0
    (by decide) (by decide)

/-- C7: the no-eol-at-eof count of a (tab-expanded, normalized) buffer is
exactly one when the buffer is non-empty with final byte other than line
feed, and exactly zero when the buffer is empty or ends in a line feed. -/
theorem C7_eol_at_eof (data : List Nat) :
    (noEolAtEofCount data = 1 ↔ data ≠ [] ∧ data.getLast? ≠ some 10) ∧
    (noEolAtEofCount data = 0 ↔ data = [] ∨ data.getLast? = some 10) := by
  rcases List.eq_nil_or_concat data with rfl | ⟨L, b, rfl⟩
  · simp [noEolAtEofCount]
  · rw [List.concat_eq_append]
    by_cases hb : b = 10
    · subst hb
      simp [noEolAtEofCount, List.getLastD_concat, List.getLast?_concat]
    · simp [noEolAtEofCount, List.getLastD_concat, List.getLast?_concat, hb]

theorem C7_witness :
    (noEolAtEofCount [105, 110, 116, 32, 120, 59] = 1 ↔
      [105, 110, 116, 32, 120, 59] ≠ ([] : List Nat) ∧
      [105, 110, 116, 32, 120, 59].getLast? ≠ some 10) ∧
    (noEolAtEofCount [105, 110, 116, 32, 120, 59] = 0 ↔
      [105, 110, 116, 32, 120, 59] = ([] : List Nat) ∨
      [105, 110, 116, 32, 120, 59].getLast? = some 10) :=
  C7_eol_at_eof [105, 110, 116, 32, 120, 59]

/-- C8: a line contributes exactly one bad-character increment when it
holds at least one byte outside {tab, CR, LF, printable ASCII 0x20–0x7E},
however many such bytes it holds, and zero otherwise; the single-line
file `b"\x01"` yields a bad-character count of exactly one. -/
theorem C8_bad_character (line : List Nat) :
    (badCharCountLine line = 1 ↔ ∃ b ∈ line, isBadChar b = true) ∧
    (badCharCountLine line = 0 ↔ ∀ b ∈ line, isBadChar b = false) ∧
    Option.map IssueRecord.badCharacter (analyzeFile [1]) = some 1 := by
  have h1 : badCharCountLine line = 1 ↔ line.any isBadChar = true := by
    unfold badCharCountLine
    cases h : line.any isBadChar <;> simp [h]
  have h0 : badCharCountLine line = 0 ↔ line.any isBadChar = false := by
    unfold badCharCountLine
    cases h : line.any isBadChar <;> simp [h]
  refine ⟨?_, ?_, by decide⟩
  · rw [h1, List.any_eq_true]
  · rw [h0, List.any_eq_false]
    constructor
    · intro h b hb
      simpa using h b hb
    · intro h b hb
      simpa using h b hb

theorem C8_witness :
    (badCharCountLine [1, 2] = 1 ↔ ∃ b ∈ [1, 2], isBadChar b = true) ∧
    (badCharCountLine [1, 2] = 0 ↔ ∀ b ∈ [1, 2], isBadChar b = false) ∧
    Option.map IssueRecord.badCharacter (analyzeFile [1]) = some 1 :=
  C8_bad_character [1, 2]

/-- C9: a non-empty line consisting entirely of whitespace increments the
trailing-whitespace count and never the bad-indenting count: its indent
equals its full length, so the indent validator skips it. -/
theorem C9_whitespace_only (line : List Nat) (st : Bool × List Nat × Nat)
    (hne : line ≠ []) (hws : ∀ b ∈ line, isPySpace b = true) :
    trailingCountLine line = 1 ∧ (indentStep st line).2 = 0 := by
  have hfull : lineIndent line = line.length := by
    unfold lineIndent
    rw [List.takeWhile_eq_self_iff.mpr hws]
  constructor
  · unfold trailingCountLine trailingRun
    have hrev : line.reverse.takeWhile isPySpace = line.reverse := by
      rw [List.takeWhile_eq_self_iff]
      intro x hx
      exact hws x (List.mem_reverse.mp hx)
    rw [hrev, List.length_reverse]
    exact if_pos (List.length_pos.mpr hne)
  · obtain ⟨c, prev, pIndent⟩ := st
    cases c with
    | true => rfl
    | false =>
      have hcond : ¬(lineIndent line ≠ line.length ∧ lineIndent line % 4 ≠ 0 ∧
          lineIndent line ≠ pIndent ∧ allowStrangeIndentOnFollowingLine prev = false ∧
          allowStrangeIndentOfLine line = false) := by
        rintro ⟨hne2, -⟩
        exact hne2 hfull
      exact if_neg hcond

theorem C9_witness :
    trailingCountLine [32] = 1 ∧ (indentStep (false, [], 0) [32]).2 = 0 :=
  C9_whitespace_only [32] (false, [], 0) (by decide) (by decide)

/-- C10: a line whose space-stripped text ends with the close delimiter
`*/` and holds no open delimiter `/*` allows a strange indent on the
following line: the attempted trailing-comment strip leaves the text
unchanged and its final byte `/` is in the continuation-character set. -/
theorem C10_close_comment_allows (line t : List Nat)
    (hs : stripSpaces line = t ++ [42, 47])
    (hno : containsPair 47 42 (stripSpaces line) = false) :
    allowStrangeIndentOnFollowingLine line = true := by
  have hfp : findPair 47 42 (stripSpaces line) = none := by
    unfold containsPair at hno
    cases h : findPair 47 42 (stripSpaces line) with
    | none => rfl
    | some r => rw [h] at hno; exact Bool.noConfusion hno
  exact allowStrange_of_close_comment_tail line t hs hfp

theorem C10_witness : allowStrangeIndentOnFollowingLine [32, 42, 47] = true :=
  C10_close_comment_allows [32, 42, 47] [] (by decide) (by decide)

end Whitelint
